import Mathlib

/-!
Verification of `pp/routing/route_pad_array.py` (`route_pad_array`).

The embedding below mirrors the source function statement by statement.
Real-valued quantities are modelled by `ℚ`; Python's `round(x, 1)` is
modelled by `round1`.  Fallible operations (dictionary lookups, the
`assert`, list indexing, integer division by zero) return `Except Err`.
The two collaborators that the source injects as parameters
(`select_ports` and `get_route_function`) are fields of `Args`.
Construction of pad references is additionally recorded in a trace
(`RunOut.pads_built`, `RunOut.routes_built`) so that statements about
"what was instantiated before a failure" can be expressed; the trace
does not influence the returned `result`.
-/

namespace RoutePadArraySpec

/-- Edge of the bounding box a port faces (supplied by the device model). -/
inductive Dir
  | N
  | S
  | E
  | W
deriving DecidableEq

/-- A named boundary connection point of the device (`pp.port.Port`):
name, position `(x, y)`, and its facing direction. -/
structure Port where
  name : String
  x : ℚ
  y : ℚ
  dir : Dir
deriving DecidableEq

/-- The device (`pp.component.Component`) as this core reads it: its port
mapping (insertion order preserved) and its bounding-box minimum y. -/
structure Component where
  ports : List Port
  ymin : ℚ
deriving DecidableEq

/-- Dictionary lookup `component.ports[lbl]`: first port with the given name. -/
def Component.findPort (c : Component) (lbl : String) : Option Port :=
  c.ports.find? (fun p => p.name == lbl)

/-- The pad prototype as this core reads it: the x coordinate of its named
ports (`pad.ports[name].x`, `none` = `KeyError`) and `pad.size_info.height`. -/
structure Pad where
  portX : String → Option ℚ
  height : ℚ

/-- A placed pad reference, `pad.ref(position=..., rotation=..., port_id=...)`. -/
structure PadRef where
  position : ℚ × ℚ
  rot : ℤ
  portId : String
deriving DecidableEq

/-- One placed geometric reference of a route (`route["references"]` entry);
opaque to this core, it only concatenates such lists. -/
structure RouteRef where
  src : Port
  dst : PadRef
deriving DecidableEq

/-- Failure modes of the source function: `KeyError` on a dictionary lookup,
the `assert` on `pad_indices`, `IndexError` in the pairing loop, and
`ZeroDivisionError` on `N // n_ports` with `n_ports = 0`. -/
inductive Err
  | keyError (k : String)
  | assertionError
  | indexError
  | zeroDivisionError
deriving DecidableEq

instance {ε α : Type} [DecidableEq ε] [DecidableEq α] : DecidableEq (Except ε α)
  | Except.ok a, Except.ok b =>
    match decEq a b with
    | isTrue h => isTrue (by rw [h])
    | isFalse h => isFalse (by intro hh; injection hh; contradiction)
  | Except.ok _, Except.error _ => isFalse (by intro h; injection h)
  | Except.error _, Except.ok _ => isFalse (by intro h; injection h)
  | Except.error e, Except.error f =>
    match decEq e f with
    | isTrue h => isTrue (by rw [h])
    | isFalse h => isFalse (by intro hh; injection hh; contradiction)

/-- Outcome of a call: the trace of constructed pad references, the trace of
`(device port, pad ref)` pairs handed to the route constructor, and the
returned value (or the raised error). -/
structure RunOut where
  pads_built : List PadRef
  routes_built : List (Port × PadRef)
  result : Except Err (List RouteRef × List (List PadRef) × ℚ)
deriving DecidableEq

/-- Python's `round(x, 1)` (one decimal place). -/
def round1 (x : ℚ) : ℚ := (round (10 * x) : ℤ) / 10

/-- Lines 97-98: `K = len(ports); K = K + 1 if K % 2 else K`. -/
def Kpad (n : ℕ) : ℕ := if n % 2 = 1 then n + 1 else n

/-- Sort ports left to right (ascending x). -/
def sortByX (l : List Port) : List Port :=
  List.insertionSort (fun a b => a.x ≤ b.x) l

/-- Sort ports bottom to top (ascending y). -/
def sortByY (l : List Port) : List Port :=
  List.insertionSort (fun a b => a.y ≤ b.y) l

/-- Modelled from the spec: `direction_ports_from_list_ports` lives in
`pp/routing/utils.py`, which is not under `src/`.  Per the spec it maps an
ordered port list to the fixed-key bucket structure `{"N","S","E","W"}`,
bucketing by the facing direction supplied by the device model, with a
canonical within-bucket order: left to right for the horizontal edges
(south, and north), bottom to top for the vertical edges (east, and west
whose reversal then gives top to bottom). -/
def direction_ports_from_list_ports (ports : List Port) : Dir → List Port
  | Dir.N => sortByX (ports.filter (fun p => p.dir == Dir.N))
  | Dir.S => sortByX (ports.filter (fun p => p.dir == Dir.S))
  | Dir.E => sortByY (ports.filter (fun p => p.dir == Dir.E))
  | Dir.W => sortByY (ports.filter (fun p => p.dir == Dir.W))

/-- Lines 121-131: split the north bucket at `len // 2`, reverse both halves
and the west bucket, and concatenate
`north_start + west + south + east + north_finish`. -/
def orderedPorts (ports : List Port) : List Port :=
  let dp := direction_ports_from_list_ports ports
  let north_ports := dp Dir.N
  let north_start := (north_ports.take (north_ports.length / 2)).reverse
  let north_finish := (north_ports.drop (north_ports.length / 2)).reverse
  let west_ports := (dp Dir.W).reverse
  let east_ports := dp Dir.E
  let south_ports := dp Dir.S
  north_start ++ west_ports ++ south_ports ++ east_ports ++ north_finish

/-- The arguments of `route_pad_array` (lines 15-32), with the source's
default values.  `pad` is the resolved pad instance (line 83 resolves the
callable-or-instance duck typing before any use).  The two injected
collaborators `select_ports` and `get_route_function` are required fields;
their Python defaults live outside this module. -/
structure Args where
  component : Component
  pad_spacing : ℚ := 150
  pad : Pad
  fanout_length : ℚ := 20
  max_y0_optical : Option ℚ := none
  straight_separation : ℚ := 4
  bend_radius : ℚ := 1/10
  connected_port_list_ids : Option (List String) := none
  n_ports : ℕ := 1
  excluded_ports : List String := []
  pad_indices : Option (List ℕ) := none
  get_route_function : Port → PadRef → List RouteRef
  port_name : String := "W"
  pad_rotation : ℤ := -90
  x_pad_offset : ℚ := 0
  port_labels : Option (List String) := none
  select_ports : List Port → List Port

/-- Lines 71-77: select the ports (by explicit labels, else by the
`select_ports` predicate) and drop the excluded names.  A missing label
raises `KeyError`. -/
def selectionPhase (a : Args) : Except Err (List Port) :=
  match a.port_labels with
  | none =>
    Except.ok ((a.select_ports a.component.ports).filter
      (fun p => !(a.excluded_ports.contains p.name)))
  | some lbls =>
    match lbls.mapM (fun lbl =>
        match a.component.findPort lbl with
        | some p => Except.ok p
        | none => Except.error (Err.keyError lbl)) with
    | Except.error e => Except.error e
    | Except.ok ports =>
      Except.ok (ports.filter (fun p => !(a.excluded_ports.contains p.name)))

/-- Lines 146-154, one iteration of the row loop: the pad references of row
`j`, one per entry of `pad_indices`, placed at
`(x_c - offset + i * io_sep, y0_optical - j * y_sep)`. -/
def mkRow (a : Args) (x_c offset y0 y_sep : ℚ) (idxs : List ℕ) (j : ℕ) :
    List PadRef :=
  idxs.map (fun (i : ℕ) =>
    ⟨(x_c - offset + (i : ℚ) * a.pad_spacing, y0 - (j : ℚ) * y_sep),
      a.pad_rotation, a.port_name⟩)

/-- Lines 158-159: `if connected_port_list_ids:` — a non-empty override list
replaces the computed order, each id looked up in the device's full port
mapping (`KeyError` if absent); `None` and the empty list are falsy. -/
def overrideLookup (a : Args) (ordered0 : List Port) : Except Err (List Port) :=
  match a.connected_port_list_ids with
  | none => Except.ok ordered0
  | some [] => Except.ok ordered0
  | some ids =>
    ids.mapM (fun i =>
      match a.component.findPort i with
      | some p => Except.ok p
      | none => Except.error (Err.keyError i))

/-- Lines 161-166: `for i in range(N)` pairing loop, reading `pads[i]` and
then `ordered_ports[i]` (each raising `IndexError` past the end, pads
checked first as in the source) and calling the route constructor.
Structural recursion over both lists together with the counter `N` is the
same index-by-index traversal.  Returns the trace of `(port, pad)` calls,
the accumulated `elements`, and the error if one was raised. -/
def pairLoop (g : Port → PadRef → List RouteRef) :
    ℕ → List PadRef → List Port →
    List (Port × PadRef) × List RouteRef × Option Err
  | 0, _, _ => ([], [], none)
  | _ + 1, [], _ => ([], [], some Err.indexError)
  | _ + 1, _ :: _, [] => ([], [], some Err.indexError)
  | k + 1, q :: qs, p :: ps =>
    let rest := pairLoop g k qs ps
    ((p, q) :: rest.1, g p q ++ rest.2.1, rest.2.2)

/-- Lines 146-168, after the geometry is fixed: build the `n_ports` rows of
pad references (only the last assignment to `pads` survives the loop, and
`io_pad_lines` receives just that final row, as in the source where line
156 sits outside the row loop), apply the connection-id override, and run
the pairing loop.  Building a fresh row from the previous row's references
is modelled from the spec (§4.4: each row instantiates one pad per slot at
the computed position); the unknown re-reference behaviour never affects a
returned value because only the final row is used.  -/
def route_pads (a : Args) (N : ℕ) (x_c offset y0_optical y_sep : ℚ)
    (ordered0 : List Port) (idxs : List ℕ) : RunOut :=
  let rows := (List.range a.n_ports).map
    (fun j => mkRow a x_c offset y0_optical y_sep idxs j)
  let pads_built := rows.flatten
  let pads := (rows.getLast?).getD []
  match overrideLookup a ordered0 with
  | Except.error e => ⟨pads_built, [], Except.error e⟩
  | Except.ok ordered =>
    let r := pairLoop a.get_route_function N pads ordered
    match r.2.2 with
    | some e => ⟨pads_built, r.1, Except.error e⟩
    | none => ⟨pads_built, r.1, Except.ok (r.2.1, [pads], y0_optical)⟩

/-- Lines 78-168 of `route_pad_array`, after port selection: the empty
short-circuit (lines 79-80), the x centre (line 90), the even padding `K`
(lines 97-98), the baseline `y0_optical` with optional ceiling (lines
106-111), the perimeter ordering (lines 121-131), the per-row count and
vertical geometry (lines 133-138), the `pad_indices` default and assert
(lines 141-144), then pad construction, override, and pairing. -/
def route_core (a : Args) (ports : List Port) : RunOut :=
  let N := ports.length
  if N = 0 then ⟨[], [], Except.ok ([], [], 0)⟩
  else
    let x_c := round1 ((ports.map Port.x).sum / (N : ℚ))
    let K := Kpad N
    match a.pad.portX a.port_name with
    | none => ⟨[], [], Except.error (Err.keyError a.port_name)⟩
    | some padx =>
      let y0b := round1 (a.component.ymin - a.fanout_length - padx
        - (K : ℚ) / 2 * a.straight_separation)
      let y0_optical :=
        match a.max_y0_optical with
        | none => y0b
        | some m => round1 (min m y0b)
      let ordered0 := orderedPorts ports
      if a.n_ports = 0 then ⟨[], [], Except.error Err.zeroDivisionError⟩
      else
        let nb := N / a.n_ports
        let y_gap := ((K : ℚ) / (a.n_ports : ℚ) + 1) * a.straight_separation
        let y_sep := a.pad.height + y_gap + a.bend_radius
        let offset := ((nb : ℚ) - 1) * a.pad_spacing / 2 - a.x_pad_offset
        match a.pad_indices with
        | none => route_pads a N x_c offset y0_optical y_sep ordered0 (List.range nb)
        | some l =>
          if l.length = nb then route_pads a N x_c offset y0_optical y_sep ordered0 l
          else ⟨[], [], Except.error Err.assertionError⟩

/-- The whole function `route_pad_array` (lines 15-168). -/
def route_pad_array (a : Args) : RunOut :=
  match selectionPhase a with
  | Except.error e => ⟨[], [], Except.error e⟩
  | Except.ok ports => route_core a ports

/-- Per-row slot count `nb_ports_per_line = N // n_ports` (line 133),
computed from the call's own selection phase. -/
def nbPerRow (a : Args) : ℕ :=
  match selectionPhase a with
  | Except.error _ => 0
  | Except.ok ports => ports.length / a.n_ports

/-- Line 90: mean port x coordinate, rounded to one decimal. -/
def xCenter (ports : List Port) : ℚ :=
  round1 ((ports.map Port.x).sum / (ports.length : ℚ))

/-- Line 138: horizontal offset of the first pad slot. -/
def offsetOf (a : Args) (nb : ℕ) : ℚ :=
  ((nb : ℚ) - 1) * a.pad_spacing / 2 - a.x_pad_offset

/-- Lines 106-108: the baseline y before the ceiling is applied. -/
def y0Base (a : Args) (N : ℕ) (padx : ℚ) : ℚ :=
  round1 (a.component.ymin - a.fanout_length - padx
    - (Kpad N : ℚ) / 2 * a.straight_separation)

/-! ### Helper lemmas about the pairing loop -/

lemma pairLoop_none_iff (g : Port → PadRef → List RouteRef) :
    ∀ (k : ℕ) (qs : List PadRef) (ps : List Port),
      (pairLoop g k qs ps).2.2 = none ↔ k ≤ qs.length ∧ k ≤ ps.length := by
  intro k
  induction k with
  | zero => intro qs ps; simp [pairLoop]
  | succ k ih =>
    intro qs ps
    cases qs with
    | nil => simp [pairLoop]
    | cons q qs =>
      cases ps with
      | nil => simp [pairLoop]
      | cons p ps =>
        simp only [pairLoop, ih qs ps, List.length_cons]
        omega

lemma pairLoop_eq_of_le (g : Port → PadRef → List RouteRef) :
    ∀ (k : ℕ) (qs : List PadRef) (ps : List Port),
      k ≤ qs.length → k ≤ ps.length →
      pairLoop g k qs ps =
        ((ps.take k).zip (qs.take k),
         ((ps.take k).zip (qs.take k)).flatMap (fun x => g x.1 x.2), none) := by
  intro k
  induction k with
  | zero => intro qs ps _ _; simp [pairLoop]
  | succ k ih =>
    intro qs ps hq hp
    cases qs with
    | nil => simp at hq
    | cons q qs =>
      cases ps with
      | nil => simp at hp
      | cons p ps =>
        simp only [List.length_cons, Nat.succ_le_succ_iff] at hq hp
        simp only [pairLoop, ih qs ps hq hp, List.take_succ_cons,
          List.zip_cons_cons, List.flatMap_cons]

lemma pairLoop_err_of_lt (g : Port → PadRef → List RouteRef) :
    ∀ (k : ℕ) (qs : List PadRef) (ps : List Port), qs.length < k →
      (pairLoop g k qs ps).2.2 = some Err.indexError := by
  intro k
  induction k with
  | zero => intro qs ps h; omega
  | succ k ih =>
    intro qs ps h
    cases qs with
    | nil => simp [pairLoop]
    | cons q qs =>
      cases ps with
      | nil => simp [pairLoop]
      | cons p ps =>
        simp only [List.length_cons] at h
        simpa only [pairLoop] using ih qs ps (by omega)

lemma pairLoop_none_trace_len (g : Port → PadRef → List RouteRef)
    (k : ℕ) (qs : List PadRef) (ps : List Port)
    (h : (pairLoop g k qs ps).2.2 = none) :
    (pairLoop g k qs ps).1.length = k := by
  obtain ⟨hq, hp⟩ := (pairLoop_none_iff g k qs ps).mp h
  rw [pairLoop_eq_of_le g k qs ps hq hp]
  simp only [List.length_zip, List.length_take]
  omega

/-! ### Helper lemmas about the pad rows -/

lemma rangeMap_getLast (n : ℕ) (f : ℕ → List PadRef) (h : n ≠ 0) :
    (((List.range n).map f).getLast?).getD [] = f (n - 1) := by
  obtain ⟨m, rfl⟩ : ∃ m, n = m + 1 := ⟨n - 1, by omega⟩
  rw [show m + 1 = Nat.succ m from rfl, List.range_succ, List.map_append]
  simp

lemma mkRow_length (a : Args) (x_c offset y0 y_sep : ℚ) (idxs : List ℕ) (j : ℕ) :
    (mkRow a x_c offset y0 y_sep idxs j).length = idxs.length := by
  simp [mkRow]

lemma flatten_rows_ne_nil (n : ℕ) (f : ℕ → List PadRef)
    (hn : n ≠ 0) (hf : f 0 ≠ []) :
    ((List.range n).map f).flatten ≠ [] := by
  intro h
  rw [List.flatten_eq_nil_iff] at h
  exact hf (h (f 0) (List.mem_map_of_mem f (by simp; omega)))

lemma route_pads_pads_built (a : Args) (N : ℕ) (x_c offset y0 y_sep : ℚ)
    (ordered0 : List Port) (idxs : List ℕ) :
    (route_pads a N x_c offset y0 y_sep ordered0 idxs).pads_built =
      ((List.range a.n_ports).map
        (fun j => mkRow a x_c offset y0 y_sep idxs j)).flatten := by
  simp only [route_pads]
  split
  · rfl
  · split <;> rfl

lemma route_pads_result_not_ok_of_short (a : Args) (N : ℕ)
    (x_c offset y0 y_sep : ℚ) (ordered0 : List Port) (idxs : List ℕ)
    (hn : a.n_ports ≠ 0) (hlen : idxs.length < N) :
    ∀ v, (route_pads a N x_c offset y0 y_sep ordered0 idxs).result ≠
      Except.ok v := by
  intro v hok
  simp only [route_pads, rangeMap_getLast a.n_ports _ hn] at hok
  split at hok
  · simp at hok
  · split at hok
    · simp at hok
    next heq =>
      have hle := ((pairLoop_none_iff _ _ _ _).mp heq).1
      rw [mkRow_length] at hle
      omega

lemma route_pads_success_trace (a : Args) (N : ℕ) (x_c offset y0 y_sep : ℚ)
    (ordered0 : List Port) (idxs : List ℕ)
    (v : List RouteRef × List (List PadRef) × ℚ)
    (h : (route_pads a N x_c offset y0 y_sep ordered0 idxs).result =
      Except.ok v) :
    (route_pads a N x_c offset y0 y_sep ordered0 idxs).routes_built.length
      = N := by
  simp only [route_pads] at h ⊢
  split at h
  next heq => simp at h
  next heq =>
    split at h
    next heq2 => simp at h
    next heq2 => exact pairLoop_none_trace_len _ _ _ _ heq2

/-! ### Counting ports across the direction buckets -/

lemma count_filter_dir (a : Port) (d : Dir) (l : List Port) :
    (l.filter (fun p => p.dir == d)).count a
      = if a.dir = d then l.count a else 0 := by
  by_cases h : a.dir = d
  · rw [if_pos h, List.count_filter (by simp [h])]
  · rw [if_neg h, List.count_eq_zero]
    intro hmem
    rw [List.mem_filter] at hmem
    exact h (by simpa using hmem.2)

lemma count_dp (l : List Port) (d : Dir) (a : Port) :
    (direction_ports_from_list_ports l d).count a
      = if a.dir = d then l.count a else 0 := by
  cases d <;>
    · simp only [direction_ports_from_list_ports, sortByX, sortByY]
      rw [(List.perm_insertionSort _ _).count_eq]
      exact count_filter_dir a _ l

lemma orderedPorts_count (l : List Port) (a : Port) :
    (orderedPorts l).count a = l.count a := by
  simp only [orderedPorts, List.count_append, List.count_reverse]
  have hsplit :
      ((direction_ports_from_list_ports l Dir.N).take
          ((direction_ports_from_list_ports l Dir.N).length / 2)).count a
        + ((direction_ports_from_list_ports l Dir.N).drop
          ((direction_ports_from_list_ports l Dir.N).length / 2)).count a
        = (direction_ports_from_list_ports l Dir.N).count a := by
    rw [← List.count_append, List.take_append_drop]
  have hN := count_dp l Dir.N a
  have hS := count_dp l Dir.S a
  have hE := count_dp l Dir.E a
  have hW := count_dp l Dir.W a
  cases had : a.dir <;> simp only [had] at hN hS hE hW <;> simp at hN hS hE hW <;> omega

lemma orderedPorts_perm (l : List Port) : List.Perm (orderedPorts l) l := by
  rw [List.perm_iff_count]
  exact orderedPorts_count l

lemma orderedPorts_length (l : List Port) :
    (orderedPorts l).length = l.length :=
  (orderedPorts_perm l).length_eq

/-! ### Concrete sample inputs used by witnesses and counterexamples -/

/-- A pad prototype whose port `"W"` sits at local x 0, with height 10. -/
def samplePad : Pad := ⟨fun n => if n = "W" then some 0 else none, 10⟩

/-- A single south-facing device port at the origin. -/
def portS1 : Port := ⟨"o1", 0, 0, Dir.S⟩

/-- A device with the single port `portS1` and `ymin = 0`. -/
def sampleComponent : Component := ⟨[portS1], 0⟩

/-- A baseline call: the sample device, the sample pad, the identity port
selector, and a route constructor returning one reference per pair. -/
def baseArgs : Args :=
  { component := sampleComponent, pad := samplePad,
    get_route_function := fun p q => [⟨p, q⟩], select_ports := id }

/-- The single pad reference the baseline call instantiates. -/
def refS1 : PadRef := ⟨(0, -24), -90, "W"⟩

lemma route_core_pad_indices (a : Args) (ports : List Port) :
    route_core
        { a with pad_indices := some (List.range (ports.length / a.n_ports)) }
        ports
      = route_core { a with pad_indices := none } ports := by
  simp only [route_core, route_pads, overrideLookup, mkRow, List.length_range,
    if_true]

lemma route_pads_result_y (a : Args) (N : ℕ) (x_c offset y0 y_sep : ℚ)
    (ordered0 : List Port) (idxs : List ℕ)
    (el : List RouteRef) (rows : List (List PadRef)) (y : ℚ)
    (h : (route_pads a N x_c offset y0 y_sep ordered0 idxs).result =
      Except.ok (el, rows, y)) : y = y0 := by
  simp only [route_pads] at h
  split at h
  next => simp at h
  next =>
    split at h
    next => simp at h
    next =>
      simp only [Except.ok.injEq, Prod.mk.injEq] at h
      exact h.2.2.symm

/-! ### The claims -/

/-- C1: for every non-empty filtered port list with no connection-id
override, the final ordered port sequence equals
`north_start ++ west ++ south ++ east ++ north_finish`, where `north_start`
is the first `len / 2` ports of the north bucket reversed, `north_finish`
is the remaining north ports reversed, the west bucket is reversed, south
and east keep their native order; and every port assigned to a bucket
appears in the merged sequence exactly once, none dropped or duplicated
(the sequence is a permutation of the concatenated buckets, and of the
filtered port list itself). -/
theorem C1_ordered_sequence (ports : List Port) (_hne : ports ≠ []) :
    (orderedPorts ports =
      ((direction_ports_from_list_ports ports Dir.N).take
          ((direction_ports_from_list_ports ports Dir.N).length / 2)).reverse
        ++ (direction_ports_from_list_ports ports Dir.W).reverse
        ++ direction_ports_from_list_ports ports Dir.S
        ++ direction_ports_from_list_ports ports Dir.E
        ++ ((direction_ports_from_list_ports ports Dir.N).drop
          ((direction_ports_from_list_ports ports Dir.N).length / 2)).reverse)
    ∧ List.Perm (orderedPorts ports)
        (direction_ports_from_list_ports ports Dir.N
          ++ direction_ports_from_list_ports ports Dir.W
          ++ direction_ports_from_list_ports ports Dir.S
          ++ direction_ports_from_list_ports ports Dir.E)
    ∧ List.Perm (orderedPorts ports) ports := by
  refine ⟨rfl, ?_, orderedPorts_perm ports⟩
  rw [List.perm_iff_count]
  intro a
  rw [orderedPorts_count]
  simp only [List.count_append]
  have hN := count_dp ports Dir.N a
  have hS := count_dp ports Dir.S a
  have hE := count_dp ports Dir.E a
  have hW := count_dp ports Dir.W a
  cases had : a.dir <;> rw [had] at hN hS hE hW <;> simp at hN hS hE hW <;>
    omega

/-- Witness for C1 at the one-port sample device. -/
theorem C1_witness : List.Perm (orderedPorts [portS1]) [portS1] :=
  (C1_ordered_sequence [portS1] (by simp)).2.2

/-- The arguments of the C2 counterexample: the baseline call with a
maximum-y ceiling of -24.04, strictly below the computed -24. -/
def argsC2 : Args := { baseArgs with max_y0_optical := some (-601/25) }

/-- C2 fails as stated: with the ceiling -601/25 = -24.04 below the
computed baseline -24, the call returns -24 = `round(min(ceiling, y0), 1)`,
not the minimum -24.04 itself — the source re-rounds after clamping. -/
theorem C2_counterexample :
    (route_pad_array argsC2).result
        = Except.ok ([⟨portS1, refS1⟩], [[refS1]], -24)
      ∧ (-24 : ℚ) ≠ min (-601/25 : ℚ) (y0Base argsC2 1 0) := by
  with_unfolding_all decide

/-- C2 as amended: the returned baseline equals
`round1 (y_min - fanout_length - pad_port_x - (K/2) * separation)` and,
when a ceiling is supplied, the minimum of the ceiling and that value is
rounded once more to one decimal before being returned. -/
theorem C2_returned_y0 (a : Args) (ports : List Port) (padx : ℚ)
    (el : List RouteRef) (rows : List (List PadRef)) (y : ℚ)
    (h1 : selectionPhase a = Except.ok ports) (h2 : ports ≠ [])
    (h3 : a.pad.portX a.port_name = some padx)
    (h4 : (route_pad_array a).result = Except.ok (el, rows, y)) :
    y = match a.max_y0_optical with
        | none => y0Base a ports.length padx
        | some m => round1 (min m (y0Base a ports.length padx)) := by
  have hlen : ¬ ports.length = 0 := by
    simpa [List.length_eq_zero] using h2
  unfold route_pad_array at h4
  rw [h1] at h4
  simp only [route_core, if_neg hlen, h3] at h4
  by_cases hn0 : a.n_ports = 0
  · rw [if_pos hn0] at h4
    simp at h4
  · rw [if_neg hn0] at h4
    cases hpi : a.pad_indices with
    | none =>
      simp only [hpi] at h4
      exact route_pads_result_y _ _ _ _ _ _ _ _ _ _ _ h4
    | some l =>
      simp only [hpi] at h4
      by_cases hll : l.length = ports.length / a.n_ports
      · simp only [if_pos hll] at h4
        exact route_pads_result_y _ _ _ _ _ _ _ _ _ _ _ h4
      · simp only [if_neg hll] at h4
        simp at h4

/-- Witness for the amended C2 at the ceiling counterexample input. -/
theorem C2_witness :
    (-24 : ℚ) = round1 (min (-601/25) (y0Base argsC2 1 0)) :=
  C2_returned_y0 argsC2 [portS1] 0 [⟨portS1, refS1⟩] [[refS1]] (-24) rfl
    (by simp) rfl (by with_unfolding_all decide)

/-- The arguments of the C3 counterexample: two pad rows over one port. -/
def argsC3 : Args := { baseArgs with n_ports := 2 }

/-- C3 fails as stated: with one selected port and `n_rows = 2` (which does
not divide 1), the call raises an index error in the pairing loop instead
of succeeding with the remainder silently excluded. -/
theorem C3_counterexample :
    1 < argsC3.n_ports ∧ ¬ argsC3.n_ports ∣ 1
      ∧ (route_pad_array argsC3).result = Except.error Err.indexError := by
  refine ⟨by decide, by decide, ?_⟩
  with_unfolding_all decide

/-- C3 as amended: for every call whose selection succeeds with `n_rows > 1`
not dividing the port count, the call fails with an error — the pairing
loop walks all `N` indices while only `N / n_rows` pads exist — rather
than silently excluding the remainder ports. -/
theorem C3_uneven_rows_error (a : Args) (ports : List Port)
    (h1 : selectionPhase a = Except.ok ports) (h2 : 1 < a.n_ports)
    (h3 : ¬ a.n_ports ∣ ports.length) :
    ∀ v, (route_pad_array a).result ≠ Except.ok v := by
  intro v hok
  have hNpos : 0 < ports.length := by
    rcases Nat.eq_zero_or_pos ports.length with h | h
    · exact absurd (h ▸ dvd_zero a.n_ports) h3
    · exact h
  have hn0 : ¬ a.n_ports = 0 := by omega
  unfold route_pad_array at hok
  rw [h1] at hok
  simp only [route_core, if_neg (by omega : ¬ ports.length = 0)] at hok
  cases hpx : a.pad.portX a.port_name with
  | none =>
    simp only [hpx] at hok
    simp at hok
  | some padx =>
    simp only [hpx, if_neg hn0] at hok
    have hlt : ports.length / a.n_ports < ports.length :=
      Nat.div_lt_self hNpos h2
    cases hpi : a.pad_indices with
    | none =>
      simp only [hpi] at hok
      exact route_pads_result_not_ok_of_short _ _ _ _ _ _ _ _ hn0
        (by simpa using hlt) v hok
    | some l =>
      simp only [hpi] at hok
      by_cases hll : l.length = ports.length / a.n_ports
      · simp only [if_pos hll] at hok
        exact route_pads_result_not_ok_of_short _ _ _ _ _ _ _ _ hn0
          (by omega) v hok
      · simp only [if_neg hll] at hok
        simp at hok

/-- Witness for the amended C3 at the two-row counterexample input. -/
theorem C3_witness :
    (route_pad_array argsC3).result ≠ Except.ok ([], [], 0) :=
  C3_uneven_rows_error argsC3 [portS1] rfl (by decide) (by decide) ([], [], 0)

/-- The arguments of the C4 counterexample: an override list naming a port
that does not exist on the device. -/
def argsC4 : Args :=
  { baseArgs with connected_port_list_ids := some ["bogus"] }

/-- C4 fails as stated: the not-found connection-id lookup aborts the call,
but only after the pad reference has already been instantiated — the call
does not abort before producing any pads. -/
theorem C4_counterexample :
    (route_pad_array argsC4).result = Except.error (Err.keyError "bogus")
      ∧ (route_pad_array argsC4).pads_built = [refS1] := by
  with_unfolding_all decide

/-- C4 as amended: a fatal failure returns only the error (never a route
list, pad rows or y value); a selection failure or a `pad_indices`
contract failure aborts before any pad is instantiated, but a failing
connection-id lookup happens after pad instantiation, so every call that
passes the `pad_indices` length check (the default or an explicit
correct-length list) with at least one pad slot per row has already built
its pads at abort. -/
theorem C4_failure_surface (a : Args) :
    (∀ e, selectionPhase a = Except.error e →
      route_pad_array a = ⟨[], [], Except.error e⟩)
    ∧ (∀ ports padx l, selectionPhase a = Except.ok ports → ports ≠ [] →
      a.pad.portX a.port_name = some padx → a.n_ports ≠ 0 →
      a.pad_indices = some l → l.length ≠ ports.length / a.n_ports →
      route_pad_array a = ⟨[], [], Except.error Err.assertionError⟩)
    ∧ (∀ ports padx e, selectionPhase a = Except.ok ports → ports ≠ [] →
      a.pad.portX a.port_name = some padx → a.n_ports ≠ 0 →
      (a.pad_indices = none
        ∨ ∃ l, a.pad_indices = some l
            ∧ l.length = ports.length / a.n_ports) →
      overrideLookup a (orderedPorts ports) = Except.error e →
      0 < ports.length / a.n_ports →
      (route_pad_array a).result = Except.error e
        ∧ (route_pad_array a).pads_built ≠ []) := by
  refine ⟨?_, ?_, ?_⟩
  · intro e hse
    unfold route_pad_array
    rw [hse]
  · intro ports padx l hsel hne2 hpx hn0 hpi hll
    have hlen : ¬ ports.length = 0 := by
      simpa [List.length_eq_zero] using hne2
    unfold route_pad_array
    rw [hsel]
    simp only [route_core, if_neg hlen, hpx, if_neg hn0, hpi, if_neg hll]
  · intro ports padx e hsel hne2 hpx hn0 hpi hov hnb
    have hlen : ¬ ports.length = 0 := by
      simpa [List.length_eq_zero] using hne2
    rcases hpi with hpi | ⟨l, hpi, hll⟩
    · unfold route_pad_array
      rw [hsel]
      simp only [route_core, if_neg hlen, hpx, if_neg hn0, hpi]
      constructor
      · simp only [route_pads, hov]
      · rw [route_pads_pads_built]
        apply flatten_rows_ne_nil a.n_ports _ hn0
        simp only [ne_eq, mkRow, List.map_eq_nil_iff, List.range_eq_nil]
        omega
    · unfold route_pad_array
      rw [hsel]
      simp only [route_core, if_neg hlen, hpx, if_neg hn0, hpi, if_pos hll]
      constructor
      · simp only [route_pads, hov]
      · rw [route_pads_pads_built]
        apply flatten_rows_ne_nil a.n_ports _ hn0
        simp only [ne_eq, mkRow, List.map_eq_nil_iff]
        intro hc
        rw [hc] at hll
        simp at hll
        omega

/-- Witness for the amended C4 at the bad-override counterexample input. -/
theorem C4_witness :
    (route_pad_array argsC4).result = Except.error (Err.keyError "bogus")
      ∧ (route_pad_array argsC4).pads_built ≠ [] :=
  (C4_failure_surface argsC4).2.2 [portS1] 0 (Err.keyError "bogus") rfl
    (by simp) rfl (by decide) (Or.inl rfl) rfl (by decide)

/-- C5: whenever selection and exclusion leave an empty port list, the call
returns exactly an empty route list, an empty pad-row list and y = 0, with
no pads instantiated and no error. -/
theorem C5_empty_selection_returns_empty (a : Args)
    (h : selectionPhase a = Except.ok []) :
    route_pad_array a = ⟨[], [], Except.ok ([], [], 0)⟩ := by
  unfold route_pad_array
  rw [h]
  rfl

/-- Witness for C5: excluding the only port yields the empty result. -/
theorem C5_witness :
    route_pad_array { baseArgs with excluded_ports := ["o1"] } =
      ⟨[], [], Except.ok ([], [], 0)⟩ :=
  C5_empty_selection_returns_empty _ rfl

lemma range_map_getD (N : ℕ) (f : ℕ → ℚ) (i : ℕ) (hi : i < N) :
    (((List.range N).map f)[i]?).getD 0 = f i := by
  simp [List.getElem?_map, List.getElem?_range, hi]

/-- The arguments of the C6 counterexample: a nonzero `x_pad_offset`. -/
def argsC6 : Args := { baseArgs with x_pad_offset := 1 }

/-- C6 fails as stated: with `x_pad_offset = 1` the single pad sits at
x = 1 = mean + offset, not at the claimed mean - offset = -1. -/
theorem C6_counterexample :
    (route_pad_array argsC6).pads_built.map (fun r => r.position.1) = [1]
      ∧ (1 : ℚ) ≠ xCenter [portS1] - argsC6.x_pad_offset := by
  with_unfolding_all decide

/-- C6 as amended: with default `pad_indices` and one row, the pad
x-positions are `x_c - offset + i * spacing` (an arithmetic sequence with
common difference `spacing`), and the sequence is centred at the rounded
mean port x-coordinate PLUS `x_pad_offset` (the first and last positions
sum to twice that centre). -/
theorem C6_pad_x_positions (a : Args) (ports : List Port) (padx : ℚ)
    (h1 : selectionPhase a = Except.ok ports) (h2 : ports ≠ [])
    (h3 : a.pad.portX a.port_name = some padx)
    (h4 : a.n_ports = 1) (h5 : a.pad_indices = none) :
    ((route_pad_array a).pads_built.map (fun r => r.position.1)
        = (List.range ports.length).map
          (fun (i : ℕ) =>
            xCenter ports - offsetOf a ports.length + (i : ℚ) * a.pad_spacing))
    ∧ (∀ i : ℕ, i + 1 < ports.length →
        (((route_pad_array a).pads_built.map
            (fun r => r.position.1))[i + 1]?).getD 0
          - (((route_pad_array a).pads_built.map
            (fun r => r.position.1))[i]?).getD 0
          = a.pad_spacing)
    ∧ (((route_pad_array a).pads_built.map
          (fun r => r.position.1))[0]?).getD 0
        + (((route_pad_array a).pads_built.map
          (fun r => r.position.1))[ports.length - 1]?).getD 0
      = 2 * (xCenter ports + a.x_pad_offset) := by
  have hlen : ¬ ports.length = 0 := by
    simpa [List.length_eq_zero] using h2
  have hn0 : ¬ a.n_ports = 0 := by simp [h4]
  have hmap : (route_pad_array a).pads_built.map (fun r => r.position.1)
      = (List.range ports.length).map
        (fun (i : ℕ) =>
          xCenter ports - offsetOf a ports.length + (i : ℚ) * a.pad_spacing) := by
    have hr1 : List.range 1 = [0] := rfl
    unfold route_pad_array
    rw [h1]
    have h10 : ¬ (1 : ℕ) = 0 := one_ne_zero
    simp only [route_core, if_neg hlen, h3, if_neg hn0, h5,
      route_pads_pads_built, h4, if_neg h10, Nat.div_one,
      hr1, List.map_cons, List.map_nil, List.flatten_cons, List.flatten_nil,
      List.append_nil, mkRow, List.map_map]
    congr 1
  refine ⟨hmap, ?_, ?_⟩
  · intro i hi
    rw [hmap, range_map_getD _ _ _ hi, range_map_getD _ _ _ (by omega)]
    push_cast
    ring
  · have hN1 : 1 ≤ ports.length := by omega
    rw [hmap, range_map_getD _ _ _ (by omega), range_map_getD _ _ _ (by omega)]
    simp only [offsetOf]
    rw [Nat.cast_sub hN1]
    push_cast
    ring

/-- Witness for the amended C6 at the baseline input. -/
theorem C6_witness :
    (route_pad_array baseArgs).pads_built.map (fun r => r.position.1)
      = (List.range 1).map
        (fun (i : ℕ) =>
          xCenter [portS1] - offsetOf baseArgs 1 + (i : ℚ) * baseArgs.pad_spacing) :=
  (C6_pad_x_positions baseArgs [portS1] 0 rfl (by simp) rfl rfl rfl).1

/-- C7: an explicit `pad_indices` list whose length differs from
`nb_per_row = N // n_rows` makes the call fail with the assertion before
any pad is created (the returned traces are empty); and an omitted
`pad_indices` behaves exactly as the identity sequence `0..nb_per_row-1`. -/
theorem C7_pad_indices_contract (a : Args) (ports : List Port) (padx : ℚ)
    (h1 : selectionPhase a = Except.ok ports) (h2 : ports ≠ [])
    (h3 : a.pad.portX a.port_name = some padx) (h4 : a.n_ports ≠ 0) :
    (∀ l, a.pad_indices = some l → l.length ≠ ports.length / a.n_ports →
      route_pad_array a = ⟨[], [], Except.error Err.assertionError⟩)
    ∧ (a.pad_indices = none →
      route_pad_array
          { a with pad_indices := some (List.range (ports.length / a.n_ports)) }
        = route_pad_array a) := by
  have hlen : ¬ ports.length = 0 := by
    simpa [List.length_eq_zero] using h2
  constructor
  · intro l hl hne
    unfold route_pad_array
    rw [h1]
    simp only [route_core, if_neg hlen, h3, if_neg h4, hl, if_neg hne]
  · intro hnone
    have hup : ({ a with pad_indices := none } : Args) = a := by
      rw [← hnone]
    conv_rhs => rw [← hup]
    have hs1 : selectionPhase
        { a with pad_indices := some (List.range (ports.length / a.n_ports)) }
        = selectionPhase a := rfl
    have hs2 : selectionPhase { a with pad_indices := none }
        = selectionPhase a := rfl
    unfold route_pad_array
    rw [hs1, hs2, h1]
    exact route_core_pad_indices a ports

/-- The arguments of the C7 witness: a two-element `pad_indices` list where
one slot is expected. -/
def argsC7 : Args := { baseArgs with pad_indices := some [0, 1] }

/-- Witness for C7: the mismatched list aborts with the assertion and no
pads built. -/
theorem C7_witness :
    route_pad_array argsC7 = ⟨[], [], Except.error Err.assertionError⟩ :=
  (C7_pad_indices_contract argsC7 [portS1] 0 rfl (by simp) rfl
      (by simp [argsC7, baseArgs])).1
    [0, 1] rfl (by simp [argsC7, baseArgs])

/-- C8: the padding factor `K` is always even — `K = len(ports) + 1` for an
odd port count and `K = len(ports)` for an even one — and the padding
never changes how many ports are paired: every successful call pairs
exactly one pad per selected port (`N` route-constructor invocations). -/
theorem C8_even_padding :
    (∀ n : ℕ, 0 < n → Even (Kpad n)
      ∧ (n % 2 = 1 → Kpad n = n + 1) ∧ (n % 2 = 0 → Kpad n = n))
    ∧ (∀ (a : Args) (ports : List Port)
        (v : List RouteRef × List (List PadRef) × ℚ),
        selectionPhase a = Except.ok ports →
        (route_pad_array a).result = Except.ok v →
        (route_pad_array a).routes_built.length = ports.length) := by
  constructor
  · intro n hn
    refine ⟨?_, ?_, ?_⟩
    · rw [Nat.even_iff, Kpad]
      split
      next h => omega
      next h => omega
    · intro h
      simp [Kpad, h]
    · intro h
      simp [Kpad, h]
  · intro a ports v h1 hok
    unfold route_pad_array at hok ⊢
    rw [h1] at hok ⊢
    by_cases hlen : ports.length = 0
    · simp only [route_core, if_pos hlen] at hok ⊢
      simpa using hlen.symm
    · simp only [route_core, if_neg hlen] at hok ⊢
      cases hpx : a.pad.portX a.port_name with
      | none =>
        simp only [hpx] at hok
        simp at hok
      | some padx =>
        simp only [hpx] at hok ⊢
        by_cases hn0 : a.n_ports = 0
        · simp only [if_pos hn0] at hok
          simp at hok
        · simp only [if_neg hn0] at hok ⊢
          cases hpi : a.pad_indices with
          | none =>
            simp only [hpi] at hok ⊢
            exact route_pads_success_trace _ _ _ _ _ _ _ _ _ hok
          | some l =>
            simp only [hpi] at hok ⊢
            by_cases hll : l.length = ports.length / a.n_ports
            · simp only [if_pos hll] at hok ⊢
              exact route_pads_success_trace _ _ _ _ _ _ _ _ _ hok
            · simp only [if_neg hll] at hok
              simp at hok

/-- Witness for C8: at the baseline call one route pairing per port. -/
theorem C8_witness :
    Even (Kpad 3)
      ∧ (route_pad_array baseArgs).routes_built.length = 1 := by
  constructor
  · exact (C8_even_padding.1 3 (by omega)).1
  · exact C8_even_padding.2 baseArgs [portS1]
      ([⟨portS1, refS1⟩], [[refS1]], -24) rfl (by with_unfolding_all decide)

/-- C9: for every input, passing `pad_indices` explicitly as the identity
sequence `0..nb_per_row-1` produces exactly the same outcome as omitting
it. -/
theorem C9_identity_pad_indices_round_trip (a : Args) :
    route_pad_array { a with pad_indices := some (List.range (nbPerRow a)) }
      = route_pad_array { a with pad_indices := none } := by
  have hs1 : selectionPhase
      { a with pad_indices := some (List.range (nbPerRow a)) }
      = selectionPhase a := rfl
  have hs2 : selectionPhase { a with pad_indices := none }
      = selectionPhase a := rfl
  unfold route_pad_array
  rw [hs1, hs2]
  cases h : selectionPhase a with
  | error e => rfl
  | ok ports =>
    have hnb : nbPerRow a = ports.length / a.n_ports := by
      unfold nbPerRow
      rw [h]
    rw [hnb]
    exact route_core_pad_indices a ports

/-- C10: an empty `connected_port_list_ids` list is falsy in the source's
`if connected_port_list_ids:` test, so it does not replace the computed
ordered sequence and the call behaves exactly as with no override. -/
theorem C10_empty_override_no_effect (a : Args) :
    route_pad_array { a with connected_port_list_ids := some [] }
      = route_pad_array { a with connected_port_list_ids := none } := rfl

end RoutePadArraySpec
